import Mathlib

/-!
Verification of the Skelly pose editor's bone-selection synchronization layer
(`Source/Skelly/Private/SkellyPoseEditor.cpp`).

The controller `FPoseEditor` owns the current pose, an optional preview
skeletal-mesh component, a transient bone-edit proxy (`_detailsViewBone`),
and three optional panels (skeleton tree, viewport, details view).  The
operations embedded here are:

 * `SetSelectedBoneNames` / `GetSelectedBoneNames` (lines 326-356),
 * `GetDetailsViewSourceObject` (lines 358-389),
 * `SkeletonTree_OnSelectionChanged` (lines 391-409),
 * `Viewport_OnSelectionChanged` (lines 411-426),
 * `SetPreviewSkeletalMesh` (lines 279-324).

Host-engine accessors used by the code (`GetBoneIndex`, `GetBoneName`,
`GetParentBone`, `FindModifiedBone`, `IsCompatibleMesh`) are embedded with
their engine contracts: `GetBoneIndex` returns `INDEX_NONE = -1` for
`NAME_None`, an absent mesh, or an unknown name; `GetBoneName` returns
`NAME_None` for an absent mesh or an out-of-range index; `GetParentBone`
returns `NAME_None` for the root and for unknown bones;
`IsCompatibleMesh` compares the mesh's skeleton with the pose's skeleton.
The numeric rotator-to-quaternion conversion (`FRotator::Quaternion`) is
engine math out of scope, so it is threaded through as a parameter
`rotQuat`.  Unguarded pointer dereferences in the source are embedded as
`Option`-valued results: `none` models the call failing on an absent
target.
-/

namespace Skelly

/-- Bone and panel identifiers (`FName`). `NAME_None` is the empty name. -/
abbrev Name := String

def NAME_None : Name := ""

/-- The invalid bone index `INDEX_NONE`. -/
def INDEX_NONE : Int := -1

structure Vec3 where
  x : Int
  y : Int
  z : Int
deriving DecidableEq, Repr

structure Quat where
  x : Int
  y : Int
  z : Int
  w : Int
deriving DecidableEq, Repr

/-- Embeds `FRotator`, the rotation representation stored in a modified-bone record. -/
structure Rotator where
  pitch : Int
  yaw : Int
  roll : Int
deriving DecidableEq, Repr

/-- Embeds `FTransform`: rotation, translation and 3D scale. -/
structure FTransform where
  rotation : Quat
  translation : Vec3
  scale3D : Vec3
deriving DecidableEq, Repr

/-- Embeds `FTransform::Identity`. -/
def FTransform.identityTransform : FTransform :=
  ⟨⟨0, 0, 0, 1⟩, ⟨0, 0, 0⟩, ⟨1, 1, 1⟩⟩

/-- One entry of a reference skeleton: bone name, parent index
(`-1` for the root) and the bone's reference-pose local transform. -/
structure Bone where
  name : Name
  parentIndex : Int
  refPose : FTransform
deriving DecidableEq, Repr

/-- Embeds `USkeletalMesh`: identified by `id`, built for the skeleton `skeletonId`,
with its reference skeleton's bone array. -/
structure SkeletalMesh where
  id : Nat
  skeletonId : Nat
  bones : List Bone
deriving DecidableEq, Repr

/-- A modified-bone record of the preview anim instance
(`FindModifiedBone` result): per-bone transform override with the rotation
kept as a rotator. -/
structure ModifiedBone where
  boneName : Name
  rotation : Rotator
  translation : Vec3
  scale : Vec3
deriving DecidableEq, Repr

/-- Embeds `UDebugSkelMeshComponent` as used by the controller: the mesh it
renders, the selected-bone index array `BonesOfInterest`, the preview
instance's modified-bone records, and a counter of `InitAnim` calls. -/
structure PreviewComponent where
  skeletalMesh : Option SkeletalMesh
  bonesOfInterest : List Int
  modifiedBones : List ModifiedBone
  initAnimCount : Nat
deriving DecidableEq, Repr

/-- Embeds `FReferenceSkeleton::FindBoneIndex`: index of the first bone carrying
the given name. -/
def findBoneIdx : List Bone → Name → Option Nat
  | [], _ => none
  | bone :: rest, b =>
      if bone.name = b then some 0 else (findBoneIdx rest b).map (· + 1)

/-- Embeds `USkinnedMeshComponent::GetBoneIndex`: `INDEX_NONE` for `NAME_None`,
an absent mesh, or a name not in the reference skeleton. -/
def PreviewComponent.GetBoneIndex (c : PreviewComponent) (boneName : Name) : Int :=
  match c.skeletalMesh with
  | none => INDEX_NONE
  | some mesh =>
      if boneName = NAME_None then INDEX_NONE
      else
        match findBoneIdx mesh.bones boneName with
        | some i => (i : Int)
        | none => INDEX_NONE

/-- Embeds `USkinnedMeshComponent::GetBoneName`: `NAME_None` for an absent mesh or
an out-of-range index. -/
def PreviewComponent.GetBoneName (c : PreviewComponent) (boneIndex : Int) : Name :=
  match c.skeletalMesh with
  | none => NAME_None
  | some mesh =>
      if boneIndex < 0 then NAME_None
      else
        match mesh.bones.get? boneIndex.toNat with
        | some bone => bone.name
        | none => NAME_None

/-- Embeds `USkinnedMeshComponent::GetParentBone`: name of the parent of the named
bone, `NAME_None` for the root bone and for unknown names. -/
def PreviewComponent.GetParentBone (c : PreviewComponent) (boneName : Name) : Name :=
  let boneIndex := c.GetBoneIndex boneName
  if 0 < boneIndex then
    match c.skeletalMesh with
    | none => NAME_None
    | some mesh =>
        match mesh.bones.get? boneIndex.toNat with
        | some bone => c.GetBoneName bone.parentIndex
        | none => NAME_None
  else NAME_None

/-- Embeds `UAnimPreviewInstance::FindModifiedBone`: the modified-bone record for
the named bone, if the bone has been edited. -/
def PreviewComponent.FindModifiedBone (c : PreviewComponent) (boneName : Name) :
    Option ModifiedBone :=
  c.modifiedBones.find? (fun mb => mb.boneName = boneName)

/-- Embeds `SkeletalMesh->RefSkeleton.GetRefBonePose()[boneIndex]`:
`none` models the access failing — a null `SkeletalMesh` dereference when
the mesh is absent, or the `TArray` range check tripping when the index is
negative (`INDEX_NONE`) or past the end. -/
def PreviewComponent.refBonePoseAt (c : PreviewComponent) (boneIndex : Int) :
    Option FTransform :=
  match c.skeletalMesh with
  | none => none
  | some mesh =>
      if boneIndex < 0 then none
      else
        match mesh.bones.get? boneIndex.toNat with
        | some bone => some bone.refPose
        | none => none

/-- Embeds `USkellyBone`, the transient proxy object (`_detailsViewBone`) that the
details panel binds to. -/
structure BoneEditProxy where
  boneName : Name
  parentBoneName : Name
  boneTransform : FTransform
deriving DecidableEq, Repr

/-- Embeds `USkellyPose` as seen by the controller: it has a skeleton. -/
structure Pose where
  skeletonId : Nat
deriving DecidableEq, Repr

/-- Embeds `USkeleton::IsCompatibleMesh`: the mesh was built for this skeleton. -/
def Pose.IsCompatibleMesh (p : Pose) (mesh : SkeletalMesh) : Bool :=
  mesh.skeletonId = p.skeletonId

/-- Selection-changed notifications a panel can raise back into the
controller. -/
inductive Event where
  | treeSelectionChanged
  | viewportSelectionChanged
deriving DecidableEq, Repr

/-- The skeleton-tree panel (`SSkeletonTree`) with its own selection. -/
structure SkeletonTreePanel where
  selection : List Name
deriving DecidableEq, Repr

/-- Modelled from the spec: `SSkeletonTree::SetSelectedBoneNames` (its
source file `SSkellySkeletonTree.cpp` is not part of the excerpt).  Per the
spec, one-directional set-selection calls do not re-raise
selection-changed on the same controller cycle, so it replaces the tree's
selection and raises no event. -/
def SkeletonTreePanel.setSelectedBoneNames (_t : SkeletonTreePanel) (boneNames : List Name) :
    SkeletonTreePanel × List Event :=
  (⟨boneNames⟩, [])

/-- Embeds `FPoseEditorViewportClient` as the controller observes it: how many
times `SetSkeletalMeshPreviewComponent` was called on it and the mesh held
by the component it was last given. -/
structure ViewportClient where
  informCount : Nat
  lastInformedMesh : Option SkeletalMesh
deriving DecidableEq, Repr

/-- The controller state of `FPoseEditor`.  `none` in an `Option` field
models an absent (invalid / null) panel, component or client.  The preview
scene and the viewport widget are observed through the count of
`AddComponent` and `Refresh` calls.  The details view holds its bound
object (`none` inside: bound to nothing). -/
structure PoseEditorState where
  currentPose : Pose
  skeletalMeshPreviewComponent : Option PreviewComponent
  detailsViewBone : BoneEditProxy
  skeletonTree : Option SkeletonTreePanel
  viewportValid : Bool
  viewportRefreshCount : Nat
  viewportClient : Option ViewportClient
  detailsView : Option (Option BoneEditProxy)
  previewSceneAddCount : Nat
deriving DecidableEq, Repr

/-- Embeds `FPoseEditor::SetSelectedBoneNames` (lines 326-340): when the preview
component exists, rebuild `BonesOfInterest` with one entry per input name,
entry `i` being `GetBoneIndex(inBoneNames[i])`; otherwise do nothing. -/
def SetSelectedBoneNames (s : PoseEditorState) (inBoneNames : List Name) : PoseEditorState :=
  match s.skeletalMeshPreviewComponent with
  | none => s
  | some comp =>
      { s with
          skeletalMeshPreviewComponent :=
            some { comp with bonesOfInterest := inBoneNames.map comp.GetBoneIndex } }

/-- Embeds `FPoseEditor::GetSelectedBoneNames` (lines 342-356): when the preview
component exists, map each index in `BonesOfInterest` to its bone name;
otherwise return the empty list. -/
def GetSelectedBoneNames (s : PoseEditorState) : List Name :=
  match s.skeletalMeshPreviewComponent with
  | none => []
  | some comp => comp.bonesOfInterest.map comp.GetBoneName

/-- The transform written by `SetComponents(rotation.Quaternion(),
translation, scale)` from a modified-bone record. -/
def transformOfModifiedBone (rotQuat : Rotator → Quat) (mb : ModifiedBone) : FTransform :=
  ⟨rotQuat mb.rotation, mb.translation, mb.scale⟩

/-- Embeds `FPoseEditor::GetDetailsViewSourceObject` (lines 358-389): when the
preview component exists and `BonesOfInterest` has exactly one entry,
update the proxy `_detailsViewBone` from that bone (transform from the
modified-bone record when the bone was edited, else from the reference
pose at the bone's index) and return it; otherwise return nothing.
The updated controller state is returned alongside the result because the
proxy is a controller-owned object.  The outer `none` models the program
failing on the unedited path when the reference-pose access fails (absent
mesh or out-of-range index); `some (s, none)` is the source returning
`nullptr`. -/
def GetDetailsViewSourceObject (rotQuat : Rotator → Quat) (s : PoseEditorState) :
    Option (PoseEditorState × Option BoneEditProxy) :=
  match s.skeletalMeshPreviewComponent with
  | none => some (s, none)
  | some comp =>
      if comp.bonesOfInterest.length = 1 then
        let boneIndex := comp.bonesOfInterest.headD INDEX_NONE
        let boneName := comp.GetBoneName boneIndex
        let boneTransformOpt :=
          match comp.FindModifiedBone boneName with
          | some skeletalControl => some (transformOfModifiedBone rotQuat skeletalControl)
          | none => comp.refBonePoseAt boneIndex
        match boneTransformOpt with
        | none => none
        | some boneTransform =>
            let proxy : BoneEditProxy :=
              { boneName := boneName
                parentBoneName := comp.GetParentBone boneName
                boneTransform := boneTransform }
            some ({ s with detailsViewBone := proxy }, some proxy)
      else some (s, none)

/-- Embeds `FPoseEditor::SkeletonTree_OnSelectionChanged` (lines 391-409): read
the tree's selected bone names (the tree pointer is dereferenced without a
validity check, so an absent tree makes the call fail: result `none`),
store them via `SetSelectedBoneNames`, refresh the viewport when it is
valid, and when the details view is valid rebind it to
`GetDetailsViewSourceObject`.  The second component collects the
selection-changed events raised back into the controller. -/
def SkeletonTree_OnSelectionChanged (rotQuat : Rotator → Quat) (s : PoseEditorState) :
    Option (PoseEditorState × List Event) :=
  match s.skeletonTree with
  | none => none
  | some tree =>
      let boneNames := tree.selection
      let s1 := SetSelectedBoneNames s boneNames
      let s2 :=
        if s1.viewportValid then
          { s1 with viewportRefreshCount := s1.viewportRefreshCount + 1 }
        else s1
      match s2.detailsView with
      | none => some (s2, [])
      | some _ =>
          match GetDetailsViewSourceObject rotQuat s2 with
          | none => none
          | some p => some ({ p.1 with detailsView := some p.2 }, [])

/-- Embeds `FPoseEditor::Viewport_OnSelectionChanged` (lines 411-426): read the
selected bone names back from the preview component's `BonesOfInterest`,
push them into the skeleton tree's selection when the tree is valid, and
when the details view is valid rebind it to `GetDetailsViewSourceObject`.
The second component collects the selection-changed events raised back
into the controller; the outer `none` models the details rebind failing
inside `GetDetailsViewSourceObject`. -/
def Viewport_OnSelectionChanged (rotQuat : Rotator → Quat) (s : PoseEditorState) :
    Option (PoseEditorState × List Event) :=
  let boneNames := GetSelectedBoneNames s
  let step :=
    match s.skeletonTree with
    | none => (s, ([] : List Event))
    | some tree =>
        let r := tree.setSelectedBoneNames boneNames
        ({ s with skeletonTree := some r.1 }, r.2)
  let s1 := step.1
  match s1.detailsView with
  | none => some (s1, step.2)
  | some _ =>
      match GetDetailsViewSourceObject rotQuat s1 with
      | none => none
      | some p => some ({ p.1 with detailsView := some p.2 }, step.2)

/-- Embeds `FPoseEditor::SetPreviewSkeletalMesh` (lines 279-324): when the mesh is
incompatible with the current pose's skeleton, do nothing (the `TODO`
notification was never implemented).  When it is compatible, the preview
component is dereferenced without a validity check (an absent component
makes the call fail: result `none`); a mesh different from the current one
is swapped in, the component is re-added to the preview scene, and a valid
viewport client is given the component; a mesh equal to the current one
only re-runs `InitAnim`. -/
def SetPreviewSkeletalMesh (s : PoseEditorState) (inPreviewSkeletalMesh : SkeletalMesh) :
    Option PoseEditorState :=
  if s.currentPose.IsCompatibleMesh inPreviewSkeletalMesh then
    match s.skeletalMeshPreviewComponent with
    | none => none
    | some comp =>
        if some inPreviewSkeletalMesh ≠ comp.skeletalMesh then
          let comp2 := { comp with skeletalMesh := some inPreviewSkeletalMesh }
          let s2 :=
            { s with
                skeletalMeshPreviewComponent := some comp2
                previewSceneAddCount := s.previewSceneAddCount + 1 }
          match s2.viewportClient with
          | none => some s2
          | some vc =>
              some { s2 with
                       viewportClient :=
                         some { informCount := vc.informCount + 1
                                lastInformedMesh := comp2.skeletalMesh } }
        else
          some { s with
                   skeletalMeshPreviewComponent :=
                     some { comp with initAnimCount := comp.initAnimCount + 1 } }
  else
    some s

/-- Selecting a bone through the skeleton tree: the user's click replaces
the tree's selection, then the tree fires its selection-changed delegate
into `SkeletonTree_OnSelectionChanged`. -/
def selectViaTree (rotQuat : Rotator → Quat) (boneName : Name) (s : PoseEditorState) :
    Option (PoseEditorState × List Event) :=
  match s.skeletonTree with
  | none => none
  | some _ =>
      SkeletonTree_OnSelectionChanged rotQuat
        { s with skeletonTree := some ⟨[boneName]⟩ }

/-- Modelled from the spec: a bone pick in the viewport
(`FPoseEditorViewportClient`, whose source file is not part of the
excerpt).  Per the spec the viewport's selection state is the preview
component's `BonesOfInterest`, so a pick stores the picked bone's index
there and then fires `OnSelectionChanged` into
`Viewport_OnSelectionChanged`. -/
def selectViaViewport (rotQuat : Rotator → Quat) (boneName : Name) (s : PoseEditorState) :
    Option (PoseEditorState × List Event) :=
  match s.skeletalMeshPreviewComponent with
  | none => none
  | some comp =>
      Viewport_OnSelectionChanged rotQuat
        { s with
            skeletalMeshPreviewComponent :=
              some { comp with bonesOfInterest := [comp.GetBoneIndex boneName] } }

/-- The cross-panel selection state claims compare: `BonesOfInterest`, the
tree's selection, and the details view's bound target. -/
def selectionState (s : PoseEditorState) :
    List Int × Option (List Name) × Option (Option BoneEditProxy) :=
  ((s.skeletalMeshPreviewComponent.map PreviewComponent.bonesOfInterest).getD [],
   s.skeletonTree.map SkeletonTreePanel.selection,
   s.detailsView)

/-- A concrete rotator-to-quaternion map for witnesses. -/
def rotQuatW : Rotator → Quat := fun r => ⟨r.pitch, r.yaw, r.roll, 1⟩

/-! Concrete fixtures used by witnesses and counterexamples. -/

def boneRoot : Bone := ⟨"Root", -1, FTransform.identityTransform⟩

def boneSpine01 : Bone := ⟨"Spine_01", 0, ⟨⟨0, 0, 0, 1⟩, ⟨0, 1, 0⟩, ⟨1, 1, 1⟩⟩⟩

def boneSpine02 : Bone := ⟨"Spine_02", 1, ⟨⟨0, 0, 0, 1⟩, ⟨1, 2, 3⟩, ⟨1, 1, 1⟩⟩⟩

/-- A mesh for skeleton 7 with a three-bone chain. -/
def meshW : SkeletalMesh := ⟨1, 7, [boneRoot, boneSpine01, boneSpine02]⟩

/-- A second mesh for skeleton 7 (compatible, distinct from `meshW`). -/
def meshW2 : SkeletalMesh := ⟨2, 7, [boneRoot]⟩

/-- A mesh for skeleton 9 (incompatible with a pose on skeleton 7). -/
def meshBad : SkeletalMesh := ⟨3, 9, [boneRoot]⟩

def compW : PreviewComponent := ⟨some meshW, [], [], 0⟩

def proxy0 : BoneEditProxy := ⟨NAME_None, NAME_None, FTransform.identityTransform⟩

/-- Editor on a pose for skeleton 7 with every panel present. -/
def stateW : PoseEditorState :=
  ⟨⟨7⟩, some compW, proxy0, some ⟨[]⟩, true, 0, some ⟨0, none⟩, some none, 0⟩

/-- Editor whose preview component is absent. -/
def stateNoComp : PoseEditorState :=
  ⟨⟨7⟩, none, proxy0, some ⟨[]⟩, true, 0, some ⟨0, none⟩, some none, 0⟩

/-- Editor whose panels and preview component are all absent except the
preview component. -/
def stateNoTree : PoseEditorState :=
  ⟨⟨7⟩, some compW, proxy0, none, false, 0, none, none, 0⟩

/-- Editor whose bone `Spine_02` is selected and already edited. -/
def compMod : PreviewComponent :=
  ⟨some meshW, [2], [⟨"Spine_02", ⟨10, 20, 30⟩, ⟨4, 5, 6⟩, ⟨2, 2, 2⟩⟩], 0⟩

def stateMod : PoseEditorState :=
  ⟨⟨7⟩, some compMod, proxy0, some ⟨["Spine_02"]⟩, true, 0, some ⟨0, none⟩, some none, 0⟩

/-- Component whose single selected entry is the invalid index, as stored
by `SetSelectedBoneNames` for a name unknown to the mesh. -/
def compBadIdx : PreviewComponent := ⟨some meshW, [INDEX_NONE], [], 0⟩

def stateBadIdx : PoseEditorState :=
  ⟨⟨7⟩, some compBadIdx, proxy0, some ⟨["NoSuchBone"]⟩, true, 0, some ⟨0, none⟩, some none, 0⟩

/-! Helper lemmas. -/

theorem findBoneIdx_mem (bones : List Bone) (b : Name)
    (hb : ∃ bone ∈ bones, bone.name = b) :
    ∃ i, findBoneIdx bones b = some i ∧
      ∃ bone, bones[i]? = some bone ∧ bone.name = b := by
  induction bones with
  | nil => simp at hb
  | cons hd tl ih =>
      by_cases h : hd.name = b
      · exact ⟨0, by simp [findBoneIdx, h], hd, by simp, h⟩
      · obtain ⟨bone, hmem, hname⟩ := hb
        have hmem2 : bone ∈ tl := by
          rcases List.mem_cons.mp hmem with h1 | h1
          · exact absurd (h1 ▸ hname) h
          · exact h1
        obtain ⟨i, hfind, bone2, hget, hname2⟩ := ih ⟨bone, hmem2, hname⟩
        exact ⟨i + 1, by simp [findBoneIdx, h, hfind], bone2, by simpa using hget, hname2⟩

/-- Round trip: `GetBoneName` inverts `GetBoneIndex` for any name carried
by a bone of the component's mesh. -/
theorem GetBoneName_GetBoneIndex (comp : PreviewComponent) (mesh : SkeletalMesh) (b : Name)
    (hm : comp.skeletalMesh = some mesh)
    (hb : ∃ bone ∈ mesh.bones, bone.name = b)
    (hne : b ≠ NAME_None) :
    comp.GetBoneName (comp.GetBoneIndex b) = b := by
  obtain ⟨i, hfind, bone, hget, hname⟩ := findBoneIdx_mem mesh.bones b hb
  unfold PreviewComponent.GetBoneIndex PreviewComponent.GetBoneName
  rw [hm]
  simp only [hne, if_false, hfind]
  have hnonneg : ¬ ((i : Int) < 0) := by exact_mod_cast Int.not_lt.mpr (Int.natCast_nonneg i)
  simp [hnonneg, hget, hname]

/-- The index found for a name carried by a bone of the component's mesh
is valid: nonnegative and within the bone array. -/
theorem GetBoneIndex_valid (comp : PreviewComponent) (mesh : SkeletalMesh) (b : Name)
    (hm : comp.skeletalMesh = some mesh)
    (hb : ∃ bone ∈ mesh.bones, bone.name = b)
    (hne : b ≠ NAME_None) :
    0 ≤ comp.GetBoneIndex b ∧ (comp.GetBoneIndex b).toNat < mesh.bones.length := by
  obtain ⟨i, hfind, bone, hget, hname⟩ := findBoneIdx_mem mesh.bones b hb
  have hlt : i < mesh.bones.length := by
    by_contra hcon
    rw [List.getElem?_eq_none (Nat.le_of_not_lt hcon)] at hget
    cases hget
  unfold PreviewComponent.GetBoneIndex
  rw [hm]
  simp only [hne, if_false, hfind]
  exact ⟨Int.natCast_nonneg i, by simpa using hlt⟩

/-- The reference-pose access succeeds at any valid index of a present
mesh. -/
theorem refBonePoseAt_isSome (comp : PreviewComponent) (mesh : SkeletalMesh) (i : Int)
    (hm : comp.skeletalMesh = some mesh)
    (h0 : 0 ≤ i) (hlen : i.toNat < mesh.bones.length) :
    ∃ t, comp.refBonePoseAt i = some t := by
  unfold PreviewComponent.refBonePoseAt
  rw [hm]
  dsimp only
  rw [if_neg (Int.not_lt.mpr h0)]
  cases hg : mesh.bones.get? i.toNat with
  | none => exact absurd (List.get?_eq_none.mp hg) (Nat.not_le_of_lt hlen)
  | some t => exact ⟨t.refPose, rfl⟩

@[simp] theorem GetBoneIndex_update (comp : PreviewComponent) (l : List Int) (b : Name) :
    PreviewComponent.GetBoneIndex { comp with bonesOfInterest := l } b =
      comp.GetBoneIndex b := rfl

@[simp] theorem GetBoneName_update (comp : PreviewComponent) (l : List Int) (i : Int) :
    PreviewComponent.GetBoneName { comp with bonesOfInterest := l } i =
      comp.GetBoneName i := rfl

@[simp] theorem GetParentBone_update (comp : PreviewComponent) (l : List Int) (b : Name) :
    PreviewComponent.GetParentBone { comp with bonesOfInterest := l } b =
      comp.GetParentBone b := rfl

@[simp] theorem FindModifiedBone_update (comp : PreviewComponent) (l : List Int) (b : Name) :
    PreviewComponent.FindModifiedBone { comp with bonesOfInterest := l } b =
      comp.FindModifiedBone b := rfl

@[simp] theorem refBonePoseAt_update (comp : PreviewComponent) (l : List Int) (i : Int) :
    PreviewComponent.refBonePoseAt { comp with bonesOfInterest := l } i =
      comp.refBonePoseAt i := rfl

/-- Counterexample to C1 as stated: a single `BonesOfInterest` entry of
`INDEX_NONE` — exactly what `SetSelectedBoneNames` stores for a name
unknown to the mesh — makes the reference-pose access fail, so the
preview component exists and exactly one entry is selected yet no proxy is
returned (the source asserts at `GetRefBonePose()[-1]`). -/
theorem C1_counterexample :
    compBadIdx.bonesOfInterest.length = 1 ∧
      stateBadIdx.skeletalMeshPreviewComponent = some compBadIdx ∧
      SetSelectedBoneNames stateBadIdx ["NoSuchBone"] = stateBadIdx ∧
      GetDetailsViewSourceObject rotQuatW stateBadIdx = none := by
  decide

/-- C1 (amended): `GetDetailsViewSourceObject` returns the bone-edit proxy
exactly when the preview component exists, `BonesOfInterest` has exactly
one entry, and that entry yields a transform (a modified-bone record for
the entry's bone name, or a reference pose at the entry's index); for
selections of size 0 or greater than 1, and for an absent component, it
returns nothing, so the details panel gets no bound target; a single
invalid entry with no record makes the reference-pose access fail instead
of returning a proxy. -/
theorem C1_amended_detailsSource (rotQuat : Rotator → Quat) (s : PoseEditorState) :
    ((∃ r, GetDetailsViewSourceObject rotQuat s = some r ∧ r.2.isSome = true) ↔
      ∃ comp, s.skeletalMeshPreviewComponent = some comp ∧
        comp.bonesOfInterest.length = 1 ∧
        ((comp.FindModifiedBone
            (comp.GetBoneName (comp.bonesOfInterest.headD INDEX_NONE))).isSome = true ∨
          (comp.refBonePoseAt (comp.bonesOfInterest.headD INDEX_NONE)).isSome = true)) ∧
    (∀ comp, s.skeletalMeshPreviewComponent = some comp →
      comp.bonesOfInterest.length ≠ 1 →
      GetDetailsViewSourceObject rotQuat s = some (s, none)) ∧
    (s.skeletalMeshPreviewComponent = none →
      GetDetailsViewSourceObject rotQuat s = some (s, none)) := by
  refine ⟨?_, ?_, ?_⟩
  · unfold GetDetailsViewSourceObject
    cases h : s.skeletalMeshPreviewComponent with
    | none => simp [h]
    | some comp =>
        by_cases hl : comp.bonesOfInterest.length = 1
        · simp only [h, hl, if_pos]
          cases hmb : comp.FindModifiedBone
              (comp.GetBoneName (comp.bonesOfInterest.head?.getD INDEX_NONE)) with
          | some mb => simp [hmb, hl]
          | none =>
              cases hrp : comp.refBonePoseAt (comp.bonesOfInterest.head?.getD INDEX_NONE) with
              | none => simp [hmb, hrp, hl]
              | some t => simp [hmb, hrp, hl]
        · simp [h, hl]
  · intro comp h hne
    unfold GetDetailsViewSourceObject
    rw [h]
    simp [hne]
  · intro h
    unfold GetDetailsViewSourceObject
    rw [h]

/-- Witness for C1 (amended): an absent component yields no bound target. -/
theorem C1_amended_detailsSource_witness :
    GetDetailsViewSourceObject rotQuatW stateNoComp = some (stateNoComp, none) :=
  (C1_amended_detailsSource rotQuatW stateNoComp).2.2 rfl

/-- C2: for every mesh incompatible with the current pose's skeleton,
`SetPreviewSkeletalMesh` succeeds and returns the state unchanged: the
preview component, preview scene and viewport client are untouched and no
error escapes. -/
theorem C2_incompatible_mesh_noop (s : PoseEditorState) (mesh : SkeletalMesh)
    (h : s.currentPose.IsCompatibleMesh mesh = false) :
    SetPreviewSkeletalMesh s mesh = some s := by
  unfold SetPreviewSkeletalMesh
  simp [h]

/-- Witness for C2 at a concrete incompatible mesh. -/
theorem C2_incompatible_mesh_noop_witness :
    stateW.currentPose.IsCompatibleMesh meshBad = false ∧
      SetPreviewSkeletalMesh stateW meshBad = some stateW :=
  ⟨by decide, C2_incompatible_mesh_noop stateW meshBad (by decide)⟩

/-- C10: with the preview component present, `SetSelectedBoneNames` stores
exactly one index per input name — entry `i` is `GetBoneIndex` of the
`i`-th name — so unknown names are kept as `INDEX_NONE` rather than
skipped, the stored selection has the input's length, and a subsequent
`GetSelectedBoneNames` has that same length. -/
theorem C10_setSelectedBoneNames_entrywise (s : PoseEditorState)
    (comp : PreviewComponent) (inBoneNames : List Name)
    (h : s.skeletalMeshPreviewComponent = some comp) :
    ∃ comp2,
      (SetSelectedBoneNames s inBoneNames).skeletalMeshPreviewComponent = some comp2 ∧
      comp2.bonesOfInterest.length = inBoneNames.length ∧
      (∀ i : Nat, i < inBoneNames.length →
        comp2.bonesOfInterest[i]? = (inBoneNames[i]?).map comp.GetBoneIndex) ∧
      (∀ n ∈ inBoneNames, comp.GetBoneIndex n = INDEX_NONE →
        INDEX_NONE ∈ comp2.bonesOfInterest) ∧
      (GetSelectedBoneNames (SetSelectedBoneNames s inBoneNames)).length =
        inBoneNames.length := by
  refine ⟨{ comp with bonesOfInterest := inBoneNames.map comp.GetBoneIndex },
    by simp [SetSelectedBoneNames, h], by simp, ?_, ?_, ?_⟩
  · intro i hi
    simp
  · intro n hmem hidx
    exact List.mem_map.mpr ⟨n, hmem, hidx⟩
  · simp [SetSelectedBoneNames, GetSelectedBoneNames, h]

/-- Witness for C10: two names, the second unknown to the mesh. -/
theorem C10_setSelectedBoneNames_entrywise_witness :
    (GetSelectedBoneNames (SetSelectedBoneNames stateW ["Spine_02", "Bogus"])).length = 2 := by
  obtain ⟨comp2, h1, h2, h3, h4, h5⟩ :=
    C10_setSelectedBoneNames_entrywise stateW compW ["Spine_02", "Bogus"] (by decide)
  exact h5

/-- C4: with exactly one bone selected — a valid index of the present
mesh — the returned proxy carries that bone's name, its parent bone's
name, and a transform taken from the preview instance's modified-bone
record when the bone was edited, and from the mesh's reference pose at the
bone's index otherwise. -/
theorem C4_proxy_fields (rotQuat : Rotator → Quat) (s : PoseEditorState)
    (comp : PreviewComponent) (mesh : SkeletalMesh) (i : Int)
    (h : s.skeletalMeshPreviewComponent = some comp)
    (hMesh : comp.skeletalMesh = some mesh)
    (hSel : comp.bonesOfInterest = [i])
    (hi0 : 0 ≤ i)
    (hiLen : i.toNat < mesh.bones.length) :
    ∃ s2 proxy, GetDetailsViewSourceObject rotQuat s = some (s2, some proxy) ∧
      proxy.boneName = comp.GetBoneName i ∧
      proxy.parentBoneName = comp.GetParentBone proxy.boneName ∧
      (∀ mb, comp.FindModifiedBone proxy.boneName = some mb →
          proxy.boneTransform = transformOfModifiedBone rotQuat mb) ∧
      (comp.FindModifiedBone proxy.boneName = none →
          comp.refBonePoseAt i = some proxy.boneTransform) := by
  obtain ⟨t, ht⟩ := refBonePoseAt_isSome comp mesh i hMesh hi0 hiLen
  unfold GetDetailsViewSourceObject
  rw [h]
  dsimp only
  rw [hSel]
  simp only [List.length_singleton, List.headD_cons, if_pos]
  cases hmb : comp.FindModifiedBone (comp.GetBoneName i) with
  | none =>
      simp only [hmb, ht]
      refine ⟨_, _, rfl, rfl, rfl, ?_, ?_⟩
      · intro mb hc
        dsimp only at hc
        rw [hmb] at hc
        cases hc
      · intro hc
        rfl
  | some mb =>
      simp only [hmb]
      refine ⟨_, _, rfl, rfl, rfl, ?_, ?_⟩
      · intro mb2 hc
        dsimp only at hc
        rw [hmb] at hc
        cases hc
        rfl
      · intro hc
        dsimp only at hc
        rw [hmb] at hc
        cases hc

/-- Witness for C4 at a state whose single selected bone has been edited. -/
theorem C4_proxy_fields_witness :
    ((GetDetailsViewSourceObject rotQuatW stateMod).map
        (fun r => r.2.map BoneEditProxy.boneName)) = some (some "Spine_02") := by
  obtain ⟨s2, proxy, h1, h2, h3, h4, h5⟩ :=
    C4_proxy_fields rotQuatW stateMod compMod meshW 2 rfl rfl rfl (by decide) (by decide)
  have hb : proxy.boneName = "Spine_02" := by rw [h2]; decide
  simp [h1, hb]

/-- The success and returned proxy of `GetDetailsViewSourceObject` depend
only on the preview component, so states sharing it agree. -/
theorem detailsSource_congr (rotQuat : Rotator → Quat) (s s2 : PoseEditorState)
    (h : s2.skeletalMeshPreviewComponent = s.skeletalMeshPreviewComponent) :
    (GetDetailsViewSourceObject rotQuat s2).map Prod.snd =
      (GetDetailsViewSourceObject rotQuat s).map Prod.snd := by
  unfold GetDetailsViewSourceObject
  rw [h]
  cases s.skeletalMeshPreviewComponent with
  | none => rfl
  | some comp =>
      by_cases hl : comp.bonesOfInterest.length = 1
      · simp only [hl, if_pos]
        cases hmb : comp.FindModifiedBone
            (comp.GetBoneName (comp.bonesOfInterest.head?.getD INDEX_NONE)) with
        | some mb => simp [hmb]
        | none =>
            cases hrp : comp.refBonePoseAt (comp.bonesOfInterest.head?.getD INDEX_NONE) with
            | none => simp [hmb, hrp]
            | some t => simp [hmb, hrp]
      · simp [hl]

/-- With the preview component present, its mesh present, and every
selected index a valid index of that mesh, `GetDetailsViewSourceObject`
succeeds, changing at most the controller-owned proxy. -/
theorem detailsSource_total_of_valid (rotQuat : Rotator → Quat) (s : PoseEditorState)
    (comp : PreviewComponent) (mesh : SkeletalMesh)
    (hComp : s.skeletalMeshPreviewComponent = some comp)
    (hMesh : comp.skeletalMesh = some mesh)
    (hValid : ∀ i ∈ comp.bonesOfInterest, 0 ≤ i ∧ i.toNat < mesh.bones.length) :
    ∃ r, GetDetailsViewSourceObject rotQuat s = some r ∧
      ∃ dvb2, r.1 = { s with detailsViewBone := dvb2 } := by
  unfold GetDetailsViewSourceObject
  rw [hComp]
  dsimp only
  by_cases hl : comp.bonesOfInterest.length = 1
  · obtain ⟨i, hi⟩ := List.length_eq_one.mp hl
    obtain ⟨h0, hlen⟩ := hValid i (by rw [hi]; exact List.mem_singleton_self i)
    obtain ⟨t, ht⟩ := refBonePoseAt_isSome comp mesh i hMesh h0 hlen
    rw [hi]
    simp only [List.length_singleton, List.headD_cons, if_pos]
    cases hmb : comp.FindModifiedBone (comp.GetBoneName i) with
    | some mb =>
        simp only [hmb]
        exact ⟨_, rfl, _, rfl⟩
    | none =>
        simp only [hmb, ht]
        exact ⟨_, rfl, _, rfl⟩
  · rw [if_neg hl]
    exact ⟨(s, none), rfl, s.detailsViewBone, by rw [← hComp]⟩

/-- C6: with the tree and details panels present and the viewport's
selection holding valid picked indices of the present mesh, the viewport
handler maps the selected bone indices to names, pushes that name list
into the skeleton tree's selection, and rebinds the details view to the
current details source object. -/
theorem C6_viewportSelection_sync (rotQuat : Rotator → Quat) (s : PoseEditorState)
    (comp : PreviewComponent) (mesh : SkeletalMesh) (tree : SkeletonTreePanel)
    (dv : Option BoneEditProxy)
    (hComp : s.skeletalMeshPreviewComponent = some comp)
    (hMesh : comp.skeletalMesh = some mesh)
    (hValid : ∀ i ∈ comp.bonesOfInterest, 0 ≤ i ∧ i.toNat < mesh.bones.length)
    (hTree : s.skeletonTree = some tree)
    (hDv : s.detailsView = some dv) :
    ∃ st, Viewport_OnSelectionChanged rotQuat s = some st ∧
      st.1.skeletonTree = some ⟨comp.bonesOfInterest.map comp.GetBoneName⟩ ∧
      ∃ r, GetDetailsViewSourceObject rotQuat s = some r ∧
        st.1.detailsView = some r.2 := by
  obtain ⟨pose, pc, dvb, st0, vv, vrc, vc, dvw, psc⟩ := s
  simp only at hComp hTree hDv
  subst hComp hTree hDv
  obtain ⟨r1, hr1, dvb2, hr1s⟩ := detailsSource_total_of_valid rotQuat
    ⟨pose, some comp, dvb, some ⟨comp.bonesOfInterest.map comp.GetBoneName⟩, vv, vrc, vc,
      some dv, psc⟩ comp mesh rfl hMesh hValid
  obtain ⟨r0, hr0, dvb0, hr0s⟩ := detailsSource_total_of_valid rotQuat
    ⟨pose, some comp, dvb, some tree, vv, vrc, vc, some dv, psc⟩ comp mesh rfl hMesh hValid
  have hcong := detailsSource_congr rotQuat
    ⟨pose, some comp, dvb, some tree, vv, vrc, vc, some dv, psc⟩
    ⟨pose, some comp, dvb, some ⟨comp.bonesOfInterest.map comp.GetBoneName⟩, vv, vrc, vc,
      some dv, psc⟩ rfl
  rw [hr0, hr1] at hcong
  simp only [Option.map_some'] at hcong
  refine ⟨({ r1.1 with detailsView := some r1.2 }, []), ?_, ?_, r0, hr0, ?_⟩
  · unfold Viewport_OnSelectionChanged
    simp only [SkeletonTreePanel.setSelectedBoneNames, GetSelectedBoneNames]
    rw [hr1]
  · dsimp only
    rw [hr1s]
  · dsimp only
    exact hcong

/-- Witness for C6 at a concrete state with all panels present. -/
theorem C6_viewportSelection_sync_witness :
    ((Viewport_OnSelectionChanged rotQuatW stateMod).map (fun st => st.1.skeletonTree)) =
      some (some ⟨["Spine_02"]⟩) := by
  obtain ⟨st, h1, h2, r, h3, h4⟩ :=
    C6_viewportSelection_sync rotQuatW stateMod compMod meshW ⟨["Spine_02"]⟩ none rfl rfl
      (by decide) rfl rfl
  rw [h1, Option.map_some', h2]
  decide

/-- C3: for a singleton tree selection naming a bone of the preview mesh,
the tree handler leaves the viewport highlight (`BonesOfInterest` read
back as names) equal to that singleton, and binds the details panel to a
proxy whose bone name is the selected name (the round-trip of the name
through `GetBoneIndex` then `GetBoneName`). -/
theorem C3_treeSelection_sync (rotQuat : Rotator → Quat) (s : PoseEditorState)
    (comp : PreviewComponent) (mesh : SkeletalMesh) (b : Name)
    (dv : Option BoneEditProxy)
    (hTree : s.skeletonTree = some ⟨[b]⟩)
    (hComp : s.skeletalMeshPreviewComponent = some comp)
    (hMesh : comp.skeletalMesh = some mesh)
    (hb : ∃ bone ∈ mesh.bones, bone.name = b)
    (hne : b ≠ NAME_None)
    (hDv : s.detailsView = some dv) :
    ∃ st, SkeletonTree_OnSelectionChanged rotQuat s = some st ∧
      GetSelectedBoneNames st.1 = [b] ∧
      ∃ proxy, st.1.detailsView = some (some proxy) ∧ proxy.boneName = b := by
  have hrt : comp.GetBoneName (comp.GetBoneIndex b) = b :=
    GetBoneName_GetBoneIndex comp mesh b hMesh hb hne
  have hvalid := GetBoneIndex_valid comp mesh b hMesh hb hne
  obtain ⟨t, ht⟩ :=
    refBonePoseAt_isSome comp mesh (comp.GetBoneIndex b) hMesh hvalid.1 hvalid.2
  obtain ⟨pose, pc, dvb, st0, vv, vrc, vc, dvw, psc⟩ := s
  simp only at hTree hComp hDv
  subst hTree hComp hDv
  unfold SkeletonTree_OnSelectionChanged SetSelectedBoneNames GetSelectedBoneNames
  cases hmb : comp.FindModifiedBone b with
  | some mb => cases vv <;> simp [GetDetailsViewSourceObject, hrt, hmb]
  | none => cases vv <;> simp [GetDetailsViewSourceObject, hrt, hmb, ht]

/-- Witness for C3: selecting `Spine_02` in the tree at a concrete state. -/
theorem C3_treeSelection_sync_witness :
    ((SkeletonTree_OnSelectionChanged rotQuatW stateMod).map
        (fun st => GetSelectedBoneNames st.1)) = some ["Spine_02"] := by
  obtain ⟨st, h1, h2, proxy, h3, h4⟩ :=
    C3_treeSelection_sync rotQuatW stateMod compMod meshW "Spine_02" none rfl rfl rfl
      ⟨boneSpine02, by decide, rfl⟩ (by decide) rfl
  rw [h1, Option.map_some', h2]

/-- Counterexample to C5 as stated: `meshW` is compatible with the pose's
skeleton, yet setting it again (it is already the preview mesh) re-adds
nothing to the preview scene and never informs the viewport client. -/
theorem C5_counterexample :
    stateW.currentPose.IsCompatibleMesh meshW = true ∧
      (SetPreviewSkeletalMesh stateW meshW).map PoseEditorState.previewSceneAddCount =
        some stateW.previewSceneAddCount ∧
      (SetPreviewSkeletalMesh stateW meshW).map PoseEditorState.viewportClient =
        some (some ⟨0, none⟩) := by
  decide

/-- C5 (amended): for every compatible mesh that differs from the preview
component's current mesh, `SetPreviewSkeletalMesh` swaps the component's
mesh to the given one, re-adds the component to the preview scene, and
informs a valid viewport client of the new component. -/
theorem C5_amended_compatible_swap (s : PoseEditorState) (comp : PreviewComponent)
    (mesh : SkeletalMesh)
    (hcompat : s.currentPose.IsCompatibleMesh mesh = true)
    (hcomp : s.skeletalMeshPreviewComponent = some comp)
    (hdiff : some mesh ≠ comp.skeletalMesh) :
    ∃ s2, SetPreviewSkeletalMesh s mesh = some s2 ∧
      s2.skeletalMeshPreviewComponent = some { comp with skeletalMesh := some mesh } ∧
      s2.previewSceneAddCount = s.previewSceneAddCount + 1 ∧
      (∀ vcl, s.viewportClient = some vcl →
        s2.viewportClient = some ⟨vcl.informCount + 1, some mesh⟩) ∧
      (s.viewportClient = none → s2.viewportClient = none) := by
  obtain ⟨pose, pc, dvb, st0, vv, vrc, vc, dvw, psc⟩ := s
  simp only at hcompat hcomp
  subst hcomp
  unfold SetPreviewSkeletalMesh
  cases vc <;> simp [hcompat, hdiff]

/-- Witness for C5 (amended) at a concrete compatible, distinct mesh. -/
theorem C5_amended_compatible_swap_witness :
    (SetPreviewSkeletalMesh stateW meshW2).map PoseEditorState.previewSceneAddCount =
      some 1 := by
  obtain ⟨s2, h1, h2, h3, h4, h5⟩ :=
    C5_amended_compatible_swap stateW compW meshW2 (by decide) rfl (by decide)
  rw [h1, Option.map_some', h3]
  rfl

/-- Counterexample to C7 as stated: with the skeleton tree absent, the
tree handler dereferences it without a validity check and fails instead of
degrading to a no-op. -/
theorem C7_counterexample :
    stateNoTree.skeletonTree = none ∧
      SkeletonTree_OnSelectionChanged rotQuatW stateNoTree = none :=
  ⟨rfl, rfl⟩

/-- C7 (amended): the guarded cross-panel calls degrade to no-ops on an
absent target — the preview-component accesses in `SetSelectedBoneNames`,
`GetSelectedBoneNames` and `GetDetailsViewSourceObject`, the tree and
details-view updates in `Viewport_OnSelectionChanged`, and the viewport
and details-view refreshes in `SkeletonTree_OnSelectionChanged` — but two
dereferences are unguarded and fail when their target is absent: the
skeleton-tree read in `SkeletonTree_OnSelectionChanged` and the preview
component on `SetPreviewSkeletalMesh`'s compatible path. -/
theorem C7_amended_guards (rotQuat : Rotator → Quat) (s : PoseEditorState)
    (mesh : SkeletalMesh) :
    (s.skeletalMeshPreviewComponent = none →
      (∀ ns, SetSelectedBoneNames s ns = s) ∧
      GetSelectedBoneNames s = [] ∧
      GetDetailsViewSourceObject rotQuat s = some (s, none)) ∧
    (s.skeletonTree = none → s.detailsView = none →
      Viewport_OnSelectionChanged rotQuat s = some (s, [])) ∧
    (∀ tree, s.skeletonTree = some tree → s.viewportValid = false →
      s.detailsView = none →
      SkeletonTree_OnSelectionChanged rotQuat s =
        some (SetSelectedBoneNames s tree.selection, [])) ∧
    (s.skeletonTree = none → SkeletonTree_OnSelectionChanged rotQuat s = none) ∧
    (s.skeletalMeshPreviewComponent = none →
      s.currentPose.IsCompatibleMesh mesh = true →
      SetPreviewSkeletalMesh s mesh = none) := by
  obtain ⟨pose, pc, dvb, st0, vv, vrc, vc, dvw, psc⟩ := s
  refine ⟨?_, ?_, ?_, ?_, ?_⟩
  · intro h
    simp only at h
    subst h
    exact ⟨fun ns => rfl, rfl, rfl⟩
  · intro h1 h2
    simp only at h1 h2
    subst h1 h2
    rfl
  · intro tree h1 h2 h3
    simp only at h1 h2 h3
    subst h1 h2 h3
    cases pc <;> rfl
  · intro h1
    simp only at h1
    subst h1
    rfl
  · intro h1 h2
    simp only at h1 h2
    subst h1
    unfold SetPreviewSkeletalMesh
    simp [h2]

/-- Witness for C7 (amended) at concrete states with absent targets. -/
theorem C7_amended_guards_witness :
    SetSelectedBoneNames stateNoComp ["Spine_02"] = stateNoComp ∧
      GetSelectedBoneNames stateNoComp = [] ∧
      SkeletonTree_OnSelectionChanged rotQuatW stateNoTree = none ∧
      SetPreviewSkeletalMesh stateNoComp meshW = none := by
  have h := C7_amended_guards rotQuatW stateNoComp meshW
  have h2 := C7_amended_guards rotQuatW stateNoTree meshW
  exact ⟨(h.1 rfl).1 ["Spine_02"], (h.1 rfl).2.1, h2.2.2.2.1 rfl,
    h.2.2.2.2 rfl (by decide)⟩

/-- C8: neither handler raises a selection-changed notification back into
a panel: the event trace of the skeleton-tree handler (empty when the
handler fails) and of the viewport handler are both empty, so the
one-directional set-selection updates cannot recurse within a controller
cycle. -/
theorem C8_no_reentrant_events (rotQuat : Rotator → Quat) (s : PoseEditorState) :
    (SkeletonTree_OnSelectionChanged rotQuat s).elim [] Prod.snd = ([] : List Event) ∧
      (Viewport_OnSelectionChanged rotQuat s).elim [] Prod.snd = ([] : List Event) := by
  obtain ⟨pose, pc, dvb, st0, vv, vrc, vc, dvw, psc⟩ := s
  constructor
  · unfold SkeletonTree_OnSelectionChanged SetSelectedBoneNames
    cases st0 <;> cases pc <;> cases vv <;> cases dvw <;> simp <;> split <;> simp
  · unfold Viewport_OnSelectionChanged
    cases st0 <;> cases dvw <;> simp [SkeletonTreePanel.setSelectedBoneNames] <;>
      split <;> simp

/-- C9: selecting bone `Spine_02` through the tree handler and then the
same bone through the viewport handler leaves the same cross-panel
selection state (`BonesOfInterest`, tree selection, details target) as
either path alone: the two handlers converge idempotently. -/
theorem C9_selection_convergence (rotQuat : Rotator → Quat) (s : PoseEditorState)
    (comp : PreviewComponent) (mesh : SkeletalMesh) (tree : SkeletonTreePanel)
    (dv : Option BoneEditProxy)
    (hComp : s.skeletalMeshPreviewComponent = some comp)
    (hMesh : comp.skeletalMesh = some mesh)
    (hb : ∃ bone ∈ mesh.bones, bone.name = "Spine_02")
    (hTree : s.skeletonTree = some tree)
    (hDv : s.detailsView = some dv) :
    ∃ sT sTV sV,
      selectViaTree rotQuat "Spine_02" s = some sT ∧
      selectViaViewport rotQuat "Spine_02" sT.1 = some sTV ∧
      selectViaViewport rotQuat "Spine_02" s = some sV ∧
      selectionState sTV.1 = selectionState sT.1 ∧
      selectionState sTV.1 = selectionState sV.1 := by
  have hrt : comp.GetBoneName (comp.GetBoneIndex "Spine_02") = "Spine_02" :=
    GetBoneName_GetBoneIndex comp mesh _ hMesh hb (by decide)
  have hvalid := GetBoneIndex_valid comp mesh "Spine_02" hMesh hb (by decide)
  obtain ⟨t, ht⟩ :=
    refBonePoseAt_isSome comp mesh (comp.GetBoneIndex "Spine_02") hMesh hvalid.1 hvalid.2
  obtain ⟨pose, pc, dvb, st0, vv, vrc, vc, dvw, psc⟩ := s
  simp only at hComp hTree hDv
  subst hComp hTree hDv
  unfold selectViaTree selectViaViewport SkeletonTree_OnSelectionChanged
    Viewport_OnSelectionChanged SetSelectedBoneNames GetSelectedBoneNames
    SkeletonTreePanel.setSelectedBoneNames selectionState
  cases hmb : comp.FindModifiedBone "Spine_02" with
  | some mb => cases vv <;> simp [GetDetailsViewSourceObject, hrt, hmb]
  | none => cases vv <;> simp [GetDetailsViewSourceObject, hrt, hmb, ht]

/-- Witness for C9: the two selection paths at a concrete state agree. -/
theorem C9_selection_convergence_witness :
    ((selectViaViewport rotQuatW "Spine_02" stateW).map
        (fun sV => selectionState sV.1)) =
      ((selectViaTree rotQuatW "Spine_02" stateW).map
        (fun sT => selectionState sT.1)) := by
  obtain ⟨sT, sTV, sV, h1, h2, h3, h4, h5⟩ :=
    C9_selection_convergence rotQuatW stateW compW meshW ⟨[]⟩ none rfl rfl
      ⟨boneSpine02, by decide, rfl⟩ rfl rfl
  rw [h1, h3, Option.map_some', Option.map_some', ← h5, h4]

end Skelly
